import Mathlib

/-!
# Verification of filerefollow (morewikimedia.py)

Shallow embedding of src/filerefollow/morewikimedia.py.

File contents are modelled as lists of byte values (0-255), the filesystem
as an association list from paths to contents, and the network as a pure
function from a URL to the bytes of the response body.  Python strings are
modelled as Lean strings (sequences of code points, as in Python 3); the
string helpers used by the program (str.startswith, str.lower, bytes.upper,
os.path.splitext, os.path.join, os.path.split, str.rfind slicing and
urllib.parse.unquote) are embedded below, specialised to the POSIX path
convention the tool runs under.
-/

namespace FileReFollow

/-! ### Byte-level file contents and the format sniffer -/

/-- File contents as a list of byte values. -/
abbrev Bytes := List Nat

/-- bytes.upper applied to a single byte: ASCII lowercase letters are
uppercased, every other byte is unchanged. -/
def upperByte (b : Nat) : Nat := if 97 ≤ b ∧ b ≤ 122 then b - 32 else b

/-- The ten bytes of the literal the sniffer compares against,
namely b"<!DOCTYPE " (morewikimedia.py line 91). -/
def doctypeMagic : Bytes := [60, 33, 68, 79, 67, 84, 89, 80, 69, 32]

/-- Embeds is_html_file (morewikimedia.py lines 88-95): f.read(10) reads
the first 10 bytes; opener.upper() uppercases them; the result is tested
with startswith against b"<!DOCTYPE ". -/
def is_html_bytes (content : Bytes) : Bool :=
  List.isPrefixOf doctypeMagic ((content.take 10).map upperByte)

/-! ### Python string helpers -/

/-- src[src.rfind chr47 + 1 :] — the substring after the last slash,
or the whole string when there is no slash (rfind returns -1 and the
slice from index 0 is the whole string).  Embeds lines 159-160. -/
def afterLastSlash (s : String) : String :=
  ((s.data.reverse.takeWhile (fun c => c ≠ '/')).reverse).asString

/-- Value of a hexadecimal digit character, as accepted by
urllib.parse.unquote. -/
def hexVal (c : Char) : Option Nat :=
  if '0' ≤ c ∧ c ≤ '9' then some (c.toNat - 48)
  else if 'a' ≤ c ∧ c ≤ 'f' then some (c.toNat - 87)
  else if 'A' ≤ c ∧ c ≤ 'F' then some (c.toNat - 55)
  else none

/-- urllib.parse.unquote on a list of characters, restricted to
single-byte (ASCII) percent escapes — the only escapes the URLs this
program handles contain.  An invalid escape is left verbatim, as in
Python. -/
def unquoteChars : List Char → List Char
  | [] => []
  | '%' :: a :: b :: rest =>
    match hexVal a, hexVal b with
    | some ha, some hb => Char.ofNat (16 * ha + hb) :: unquoteChars rest
    | _, _ => '%' :: unquoteChars (a :: b :: rest)
  | c :: rest => c :: unquoteChars rest

/-- urllib.parse.unquote on a string (morewikimedia.py line 161). -/
def unquote (s : String) : String := (unquoteChars s.data).asString

/-- str.lower restricted to ASCII letters (all extensions the program
compares are ASCII). -/
def toLowerStr (s : String) : String := (s.data.map Char.toLower).asString

/-- The extension part of os.path.splitext (POSIX): the extension starts
at the last dot that comes after the last slash, provided at least one
non-dot character precedes that dot within the final path component;
otherwise the extension is empty.  Embeds line 162. -/
def splitext_ext (s : String) : String :=
  let revBase := (afterLastSlash s).data.reverse
  if revBase.contains '.' then
    let extRev := revBase.takeWhile (fun c => c ≠ '.')
    let preRev := (revBase.drop extRev.length).drop 1
    if preRev.any (fun c => c ≠ '.') then ('.' :: extRev.reverse).asString
    else ""
  else ""

/-- os.path.join (POSIX, two arguments): an absolute second component
replaces the first; otherwise a slash separates them unless the first is
empty or already ends in a slash. -/
def ospath_join (a b : String) : String :=
  if b.data.head? = some '/' then b
  else if a = "" ∨ a.data.getLast? = some '/' then a ++ b
  else a ++ "/" ++ b

/-- The second component of os.path.split: the part after the last
slash (morewikimedia.py line 144). -/
def basename (s : String) : String := afterLastSlash s

/-- Truthiness of an optional Python string: None and the empty string
are falsy, every other string is truthy. -/
def pyTruthyOpt : Option String → Bool
  | none => false
  | some s => s ≠ ""

/-! ### Filename codec (pseudo-protocol marker) -/

/-- morewikimedia.py line 34: the pseudo-colon marker (U+02D0), not a
real colon. -/
def pseudo_colon : String := "ː"

/-- morewikimedia.py line 35: the full marker prefix. -/
def pseudo_protocol : String := "Fileː"

/-- Marking a filename as markup-standing-in-for-binary: undo
(morewikimedia.py line 50) computes new = pseudo_protocol + sub. -/
def mark (name : String) : String := pseudo_protocol ++ name

/-- Unmarking a filename: redownload_all strips the five-character
pseudo_protocol prefix (line 219, sub[5:]) from names starting with it,
or the one-character pseudo-colon prefix (line 229, sub[1:]) from names
starting with that; other names are left alone. -/
def unmark (name : String) : String :=
  if List.isPrefixOf pseudo_protocol.data name.data then
    (name.data.drop 5).asString
  else if List.isPrefixOf pseudo_colon.data name.data then
    (name.data.drop 1).asString
  else name

/-! ### User agent -/

/-- morewikimedia.py lines 39-40: the UA constant, exactly as written in
the source (the two adjacent string literals concatenate). -/
def UA : String :=
  "User-Agent: FileReFollow/0.2"
    ++ " (https://github.com/Poikilos/filerefollow) filerefollow/0.2"

/-- morewikimedia.py line 42: the headers dict passed to every
requests.get call (line 73). -/
def headers : List (String × String) := [("User-Agent", UA)]

/-- Formalises the documented User-Agent format from the spec and from
the docstring of download (lines 65-68):
product/version (contact) library/version.  The value must begin
directly with the product token: a nonempty run of characters containing
no space, no colon and no slash, immediately followed by a slash and a
nonempty version token ending at the first space; the remainder must
open a parenthesised contact part, and after the closing parenthesis and
a space a library token containing a slash must follow. -/
def uaSpecFormat (s : String) : Bool :=
  let l := s.data
  let product := l.takeWhile (fun c => c ≠ '/' ∧ c ≠ ' ' ∧ c ≠ ':')
  let afterProduct := l.drop product.length
  (product ≠ []) &&
  (afterProduct.head? = some '/') &&
  (let version := (afterProduct.drop 1).takeWhile (fun c => c ≠ ' ')
   let rest := (afterProduct.drop 1).drop version.length
   (version ≠ []) && version.all (fun c => c ≠ '/') &&
   (rest.head? = some ' ') &&
   ((rest.drop 1).head? = some '(') &&
   (let contact := ((rest.drop 1).drop 1).takeWhile (fun c => c ≠ ')')
    let tail := ((rest.drop 1).drop 1).drop contact.length
    (tail.head? = some ')') &&
    ((tail.drop 1).head? = some ' ') &&
    (let lib := tail.drop 2
     (lib ≠ []) && lib.contains '/')))

/-! ### Filesystem and network model -/

/-- The filesystem: an association list from file paths to contents.
Directories are not tracked (os.makedirs only creates directories and is
irrelevant to every property below). -/
abbrev FS := List (String × Bytes)

/-- os.path.isfile. -/
def fsIsFile (fs : FS) (p : String) : Bool := (List.lookup p fs).isSome

/-- is_html_file applied to a file on disk: sniff the stored contents. -/
def fsIsHtml (fs : FS) (p : String) : Bool :=
  match List.lookup p fs with
  | some c => is_html_bytes c
  | none => false

/-- os.remove. -/
def fsRemove (fs : FS) (p : String) : FS := fs.filter (fun e => e.1 ≠ p)

/-- open(p, "wb") followed by writing c. -/
def fsWrite (fs : FS) (p : String) (c : Bytes) : FS := (p, c) :: fsRemove fs p

/-- shutil.move from a to b (no-op when a does not exist; the program
only moves files it has just tested with os.path.isfile). -/
def fsMove (fs : FS) (a b : String) : FS :=
  match List.lookup a fs with
  | none => fs
  | some c => fsWrite (fsRemove fs a) b c

/-- The network, as a pure map from a URL to the bytes of the GET
response body. -/
abbrev Net := String → Bytes

/-- Embeds download (morewikimedia.py lines 61-85): one requests.get on
url and the response body streamed to file_name.  The progress printing
has no filesystem effect. -/
def download (fs : FS) (net : Net) (url file_name : String) : FS :=
  fsWrite fs file_name (net url)

/-! ### Recovery fetcher (lines 178-200 of redownload, one reference) -/

/-- The fetch outcomes named by the spec (section 3, Fetch Outcome). -/
inductive FetchOutcome
  | skippedExisting
  | reusedLeftover
  | downloaded
  | failedHtmlAgain
  deriving DecidableEq, Repr

/-- Result of one fetch: the filesystem afterwards, the outcome, and the
number of HTTP GETs performed. -/
structure FetchResult where
  fs : FS
  outcome : FetchOutcome
  gets : Nat
  deriving DecidableEq, Repr

/-- Embeds lines 178-200 of redownload for a single matching reference:
keep = os.path.isfile(dst); if keep and is_html_file(dst) the stale
artifact is removed and keep becomes False; if keep the existing file is
kept (skipped-existing); elif encoded_dst (truthy) names an existing
leftover it is moved onto dst (reused-leftover); else download, then
sniff dst and either delete it (failed-html-again) or keep it
(downloaded). -/
def fetch_or_recover (fs0 : FS) (net : Net) (src dst : String)
    (encoded_dst : Option String) : FetchResult :=
  let keep0 := fsIsFile fs0 dst
  let cleaned := keep0 && fsIsHtml fs0 dst
  let fs1 := if cleaned then fsRemove fs0 dst else fs0
  let keep := if cleaned then false else keep0
  if keep then ⟨fs1, .skippedExisting, 0⟩
  else if pyTruthyOpt encoded_dst && fsIsFile fs1 (encoded_dst.getD "") then
    ⟨fsMove fs1 (encoded_dst.getD "") dst, .reusedLeftover, 0⟩
  else
    let fs2 := download fs1 net src dst
    if fsIsHtml fs2 dst then ⟨fsRemove fs2 dst, .failedHtmlAgain, 1⟩
    else ⟨fs2, .downloaded, 1⟩

/-! ### redownload (lines 98-212) -/

/-- A parsed document element: its tag and its src attribute when the
attribute is present (src is the only attribute redownload reads). -/
structure Elt where
  tag : String
  src : Option String
  deriving DecidableEq, Repr

/-- State threaded through the element loop of redownload: the
filesystem, got (None, then a truthy path or URL string), found_url
(False, then the last src string seen), the number of GETs so far, the
outcome of every fetch performed, and the src of every reference whose
fetch stage actually ran. -/
structure LoopState where
  fs : FS
  got : Option String
  found_url : Option String
  gets : Nat
  outcomes : List FetchOutcome
  matched : List String
  deriving DecidableEq, Repr

/-- One iteration of the for-elt loop of redownload (lines 146-204).
Elements without a src attribute are skipped; otherwise found_url is set
to src, the reference is skipped when its extension (lowercased) is not
in dot_exts, and otherwise the fetch runs against dst (folder/name, or
binary_path — skipping entirely when got is already truthy in the
binary_path case), after which got records encoded_dst or src exactly in
the reused-leftover and downloaded branches. -/
def processElt (folder binary_path : Option String) (dot_exts : List String)
    (net : Net) (st : LoopState) (elt : Elt) : LoopState :=
  match elt.src with
  | none => st
  | some src =>
    let foundSt : LoopState :=
      ⟨st.fs, st.got, some src, st.gets, st.outcomes, st.matched⟩
    let encoded_name := afterLastSlash src
    let name := unquote encoded_name
    let dot_ext := splitext_ext src
    if (dot_exts.contains (toLowerStr dot_ext)) = false then foundSt
    else
      let encoded_dst :=
        if pyTruthyOpt folder then some (ospath_join (folder.getD "") encoded_name)
        else none
      let runFetch : String → LoopState := fun dst =>
        let r := fetch_or_recover foundSt.fs net src dst encoded_dst
        let got2 : Option String :=
          match r.outcome with
          | .reusedLeftover => encoded_dst
          | .downloaded => some src
          | _ => foundSt.got
        ⟨r.fs, got2, foundSt.found_url, foundSt.gets + r.gets,
          foundSt.outcomes ++ [r.outcome], foundSt.matched ++ [src]⟩
      match binary_path with
      | none => runFetch (ospath_join (folder.getD "") name)
      | some bp =>
        if pyTruthyOpt foundSt.got then foundSt
        else runFetch bp

/-- Result of one redownload call. -/
structure RedownloadResult where
  fs : FS
  gets : Nat
  outcomes : List FetchOutcome
  matched : List String
  got : Option String
  found_url : Option String
  movedHtml : Bool
  warnedNoSrc : Bool
  deriving DecidableEq, Repr

instance {ε α : Type} [DecidableEq ε] [DecidableEq α] :
    DecidableEq (Except ε α) := fun a b =>
  match a, b with
  | .error x, .error y =>
    if h : x = y then isTrue (by rw [h])
    else isFalse (fun hh => h (Except.error.injEq .. ▸ hh))
  | .ok x, .ok y =>
    if h : x = y then isTrue (by rw [h])
    else isFalse (fun hh => h (Except.ok.injEq .. ▸ hh))
  | .error _, .ok _ => isFalse (fun hh => Except.noConfusion hh)
  | .ok _, .error _ => isFalse (fun hh => Except.noConfusion hh)

/-- Embeds redownload (morewikimedia.py lines 98-212).  The ValueError
for conflicting options is raised first (lines 127-131), before any
filesystem or network activity; folder then defaults to "media" when
binary_path is unset, html_folder defaults to "html", dot_exts is the
lowercased dotted extension list, the document elements are processed in
order, and finally the original markup file is moved into html_folder
exactly when got is truthy, and the missing-source warning is printed
exactly when found_url is falsy. -/
def redownload (fs : FS) (net : Net) (html_path : String) (doc : List Elt)
    (extensions : List String) (folder0 binary_path html_folder0 : Option String) :
    Except String RedownloadResult :=
  if binary_path.isSome && folder0.isSome then
    Except.error "Destination folder cannot be set because binary_path is set"
  else
    let folder := if binary_path.isSome then folder0
      else some (folder0.getD "media")
    let html_folder := html_folder0.getD "html"
    let dot_exts := extensions.map (fun ext => "." ++ toLowerStr ext)
    let old_name := basename html_path
    let st0 : LoopState := ⟨fs, none, none, 0, [], []⟩
    let st := doc.foldl (processElt folder binary_path dot_exts net) st0
    let moved := pyTruthyOpt st.got
    let fs2 := if moved then
        fsMove st.fs html_path (ospath_join html_folder old_name)
      else st.fs
    let warned := !pyTruthyOpt st.found_url
    Except.ok ⟨fs2, st.gets, st.outcomes, st.matched, st.got, st.found_url,
      moved, warned⟩

/-! ### Helper constants for concrete evaluations -/

/-- A network whose every response body is empty (a non-markup body). -/
def emptyNet : Net := fun _ => []

/-- Extracts the matched-reference list of a redownload run (empty on a
configuration error). -/
def redownloadMatched (res : Except String RedownloadResult) : List String :=
  match res with
  | .ok r => r.matched
  | .error _ => []

/-! ### Filesystem lemmas -/

theorem lookup_fsRemove_self (fs : FS) (p : String) :
    List.lookup p (fsRemove fs p) = none := by
  induction fs with
  | nil => rfl
  | cons hd tl ih =>
    by_cases h : hd.1 = p
    · simpa [fsRemove, List.filter_cons, h] using ih
    · have hne : (p == hd.1) = false := by
        simp [h]
        exact fun hh => h hh.symm
      simp only [fsRemove, List.filter_cons] at ih ⊢
      simp only [h, decide_not, decide_eq_true_eq]
      simp [List.lookup, hne, h]
      simpa [fsRemove] using ih

theorem fsIsFile_fsRemove_self (fs : FS) (p : String) :
    fsIsFile (fsRemove fs p) p = false := by
  simp [fsIsFile, lookup_fsRemove_self]

theorem lookup_fsWrite_self (fs : FS) (p : String) (c : Bytes) :
    List.lookup p (fsWrite fs p c) = some c := by
  simp [fsWrite, List.lookup]

theorem fsIsHtml_fsWrite_self (fs : FS) (p : String) (c : Bytes) :
    fsIsHtml (fsWrite fs p c) p = is_html_bytes c := by
  simp [fsIsHtml, lookup_fsWrite_self]

/-! ### Claim theorems -/

/-- C6: for every filename n that does not contain the marker substring,
unmark (mark n) = n — mark prepends the fixed five-character marker
prefix and unmark strips a recognized prefix from names that start with
one. -/
theorem unmark_mark_roundtrip (n : String)
    (h : ¬ (pseudo_protocol.data <:+: n.data)) :
    unmark (mark n) = n := by
  have hdata : (mark n).data = pseudo_protocol.data ++ n.data := by
    simp [mark, String.data_append]
  have hpre : List.isPrefixOf pseudo_protocol.data (mark n).data = true := by
    rw [hdata, List.isPrefixOf_iff_prefix]
    exact List.prefix_append _ _
  have hlen : pseudo_protocol.data.length = 5 := by decide
  rw [unmark, if_pos hpre, hdata, ← hlen, List.drop_left]
  rfl

/-- Witness for C6 at a concrete filename. -/
theorem unmark_mark_roundtrip_witness :
    ¬ (pseudo_protocol.data <:+: ("2-3_guajeo.mid").data)
      ∧ unmark (mark "2-3_guajeo.mid") = "2-3_guajeo.mid" :=
  ⟨by decide, unmark_mark_roundtrip "2-3_guajeo.mid" (by decide)⟩

/-- C7: the format sniffer depends only on the first 10 bytes of the
file; it returns true exactly when the case-normalized leading bytes
start with the markup declaration prefix; and any file beginning with
that exact prefix is classified as markup regardless of the rest. -/
theorem is_html_bytes_spec :
    (∀ c₁ c₂ : Bytes, c₁.take 10 = c₂.take 10 →
      is_html_bytes c₁ = is_html_bytes c₂)
    ∧ (∀ c : Bytes, is_html_bytes c = true ↔
      doctypeMagic <+: (c.map upperByte))
    ∧ (∀ c : Bytes, doctypeMagic <+: c → is_html_bytes c = true) := by
  have hlen : doctypeMagic.length = 10 := by decide
  have key : ∀ c : Bytes, is_html_bytes c = true ↔
      doctypeMagic <+: (c.map upperByte) := by
    intro c
    rw [is_html_bytes, List.isPrefixOf_iff_prefix, List.map_take,
      List.prefix_take_iff]
    constructor
    · exact fun hh => hh.1
    · exact fun hh => ⟨hh, by rw [hlen]⟩
  refine ⟨?_, key, ?_⟩
  · intro c₁ c₂ hc
    rw [is_html_bytes, is_html_bytes, hc]
  · intro c hc
    rw [key]
    obtain ⟨t, ht⟩ := hc
    have hfix : doctypeMagic.map upperByte = doctypeMagic := by decide
    rw [← ht, List.map_append, hfix]
    exact List.prefix_append _ _

/-- Witness for C7: a lowercase declaration followed by binary bytes is
classified as markup. -/
theorem is_html_bytes_spec_witness :
    doctypeMagic <+: (doctypeMagic ++ [0, 255, 7])
      ∧ is_html_bytes (doctypeMagic ++ [0, 255, 7]) = true :=
  ⟨List.prefix_append _ _,
    is_html_bytes_spec.2.2 (doctypeMagic ++ [0, 255, 7])
      (List.prefix_append _ _)⟩

/-- C2: every GET carries the headers dict whose User-Agent entry is the
UA constant — but that value is malformed: its first twelve characters
are the header name followed by a colon and a space, so the value does
not follow the documented product/version (contact) library/version
format, while the value with those twelve characters removed does. -/
theorem ua_header_value_malformed :
    List.lookup "User-Agent" headers = some UA
    ∧ (UA.data.take 12).asString = "User-Agent: "
    ∧ uaSpecFormat UA = false
    ∧ uaSpecFormat ((UA.data.drop 12).asString) = true :=
  ⟨by decide, by decide, by decide, by decide⟩

/-- C8: calling redownload with both binary_path and folder set raises
ValueError at once: the result is the error, produced before any
filesystem or network effect (no success state exists for it). -/
theorem redownload_conflicting_options (fs : FS) (net : Net)
    (html_path : String) (doc : List Elt) (extensions : List String)
    (f bp : String) (html_folder0 : Option String) :
    redownload fs net html_path doc extensions (some f) (some bp)
        html_folder0
      = Except.error
          "Destination folder cannot be set because binary_path is set" := by
  simp [redownload]

/-- C3 counterexample: configuring the binary destination folder and the
markup archive folder to the same path "media" is not rejected — the run
completes normally instead of failing fast. -/
theorem same_folders_not_rejected_counterexample :
    redownload [] emptyNet "h" [] ["mid"] (some "media") none (some "media")
      = Except.ok ⟨[], 0, [], [], none, none, false, true⟩ := by decide

/-- C3 amended: with binary_path unset, redownload never raises a
configuration error, even when the destination folder and the archive
folder are the same path; the docstring only warns against that
configuration. -/
theorem redownload_same_folders_accepted (fs : FS) (net : Net)
    (html_path : String) (doc : List Elt) (extensions : List String)
    (f : String) :
    ∃ r, redownload fs net html_path doc extensions (some f) none (some f)
      = Except.ok r := by
  simp [redownload]

/-! ### Loop lemmas for documents without usable references -/

theorem processElt_no_src (folder bp : Option String) (dexts : List String)
    (net : Net) (st : LoopState) (t : String) :
    processElt folder bp dexts net st ⟨t, none⟩ = st := rfl

theorem foldl_processElt_no_src (folder bp : Option String)
    (dexts : List String) (net : Net) (doc : List Elt) (st : LoopState)
    (h : ∀ e ∈ doc, e.src = none) :
    doc.foldl (processElt folder bp dexts net) st = st := by
  induction doc generalizing st with
  | nil => rfl
  | cons e tl ih =>
    have he : e.src = none := h e (by simp)
    have hstep : processElt folder bp dexts net st e = st := by
      obtain ⟨t, s⟩ := e
      simp only at he
      rw [he]
      exact processElt_no_src folder bp dexts net st t
    rw [List.foldl_cons, hstep]
    exact ih st (fun x hx => h x (by simp [hx]))

/-- An element of the dot_exts list built by redownload is never the
empty string. -/
theorem empty_not_in_dot_exts (extensions : List String) :
    "" ∉ extensions.map (fun ext => "." ++ toLowerStr ext) := by
  simp only [List.mem_map, not_exists]
  rintro x ⟨hx, heq⟩
  have hlen := congrArg String.length heq
  rw [String.length_append] at hlen
  have h1 : (".").length = 1 := rfl
  have h0 : ("" : String).length = 0 := rfl
  omega

/-- An element whose src attribute is the empty string updates found_url
and is then skipped by the extension filter (its extension is empty, and
dot_exts never contains the empty string). -/
theorem processElt_empty_src (folder bp : Option String)
    (dexts : List String) (net : Net) (st : LoopState) (t : String)
    (hdx : "" ∉ dexts) :
    processElt folder bp dexts net st ⟨t, some ""⟩
      = ⟨st.fs, st.got, some "", st.gets, st.outcomes, st.matched⟩ := by
  have hext : toLowerStr (splitext_ext "") = "" := by decide
  have hcon : dexts.contains "" = false := by
    simpa using hdx
  simp [processElt, hext, hcon]
  intro hmem
  exact absurd hmem hdx

theorem foldl_processElt_empty_src (folder bp : Option String)
    (dexts : List String) (net : Net) (doc : List Elt) (st : LoopState)
    (hdx : "" ∉ dexts) (h : ∀ e ∈ doc, e.src = none ∨ e.src = some "") :
    doc.foldl (processElt folder bp dexts net) st
      = ⟨st.fs, st.got,
          (if doc.any (fun e => e.src == some "") then some "" else st.found_url),
          st.gets, st.outcomes, st.matched⟩ := by
  induction doc generalizing st with
  | nil =>
    obtain ⟨a, b, c, d, e, f⟩ := st
    rfl
  | cons e tl ih =>
    obtain ⟨t, s⟩ := e
    have he := h ⟨t, s⟩ (by simp)
    simp only at he
    rw [List.foldl_cons]
    rcases he with he | he
    · rw [he, processElt_no_src,
        ih st (fun x hx => h x (by simp [hx]))]
      simp [he]
    · rw [he, processElt_empty_src folder bp dexts net st t hdx,
        ih _ (fun x hx => h x (by simp [hx]))]
      simp only [List.any_cons, he]
      by_cases hany : tl.any (fun e => e.src == some "")
      · simp [hany]
      · simp [hany]

/-- C9: a document with zero reference-bearing elements produces no
fetch, reports found_url as false (so the no-source warning fires), and
never moves the original markup file — the filesystem is unchanged. -/
theorem redownload_no_references (fs : FS) (net : Net)
    (html_path : String) (doc : List Elt) (extensions : List String)
    (folder0 html_folder0 : Option String)
    (h : ∀ e ∈ doc, e.src = none) :
    redownload fs net html_path doc extensions folder0 none html_folder0
      = Except.ok ⟨fs, 0, [], [], none, none, false, true⟩ := by
  simp only [redownload, Option.isSome_none, Bool.false_and,
    Bool.and_self, if_neg, Bool.false_eq_true, not_false_eq_true,
    foldl_processElt_no_src _ _ _ _ _ _ h]
  rfl

/-- Witness for C9 on a one-element document with no src attribute. -/
theorem redownload_no_references_witness :
    (∀ e ∈ [(⟨"audio", none⟩ : Elt)], e.src = none)
      ∧ redownload [("page", doctypeMagic)] emptyNet "page"
          [⟨"audio", none⟩] ["mid"] none none none
        = Except.ok ⟨[("page", doctypeMagic)], 0, [], [], none, none,
            false, true⟩ :=
  ⟨by decide,
    redownload_no_references [("page", doctypeMagic)] emptyNet "page"
      [⟨"audio", none⟩] ["mid"] none none (by decide)⟩

/-- C10: a document whose only reference-bearing elements carry an empty
src value is reported as having no source at all — found_url is the
empty string, which is falsy, so the no-source warning fires — and the
empty reference is skipped without any fetch, error, or file move. -/
theorem redownload_only_empty_src (fs : FS) (net : Net)
    (html_path : String) (doc : List Elt) (extensions : List String)
    (folder0 html_folder0 : Option String)
    (h1 : ∀ e ∈ doc, e.src = none ∨ e.src = some "")
    (h2 : ∃ e ∈ doc, e.src = some "") :
    redownload fs net html_path doc extensions folder0 none html_folder0
      = Except.ok ⟨fs, 0, [], [], none, some "", false, true⟩ := by
  have hdx := empty_not_in_dot_exts extensions
  have hany : doc.any (fun e => e.src == some "") = true := by
    obtain ⟨e, he, hsrc⟩ := h2
    simp only [List.any_eq_true]
    exact ⟨e, he, by simp [hsrc]⟩
  simp only [redownload, Option.isSome_none, Bool.false_and,
    foldl_processElt_empty_src _ _ _ _ _ _ hdx h1, hany]
  rfl

/-- Witness for C10 on a one-element document whose src is empty. -/
theorem redownload_only_empty_src_witness :
    (∀ e ∈ [(⟨"source", some ""⟩ : Elt)], e.src = none ∨ e.src = some "")
      ∧ (∃ e ∈ [(⟨"source", some ""⟩ : Elt)], e.src = some "")
      ∧ redownload [("page", doctypeMagic)] emptyNet "page"
          [⟨"source", some ""⟩] ["mid"] none none none
        = Except.ok ⟨[("page", doctypeMagic)], 0, [], [], none, some "",
            false, true⟩ :=
  ⟨by decide, by decide,
    redownload_only_empty_src [("page", doctypeMagic)] emptyNet "page"
      [⟨"source", some ""⟩] ["mid"] none none (by decide) (by decide)⟩

/-- C5: the fetch decision order, first applicable clause wins.
(1) An existing non-markup destination is kept: skipped-existing, no
GET, filesystem untouched.  (2) An existing markup destination is
deleted and the fetch falls through to a fresh attempt on the remaining
filesystem.  (3) With no destination present, a truthy encoded leftover
that exists on disk is moved onto the destination: reused-leftover, no
GET.  (4,5) Otherwise exactly one GET runs; a markup body is deleted
again (failed-html-again), any other body stays (downloaded).  In every
case at most one GET is performed. -/
theorem fetch_or_recover_decision_order (fs : FS) (net : Net)
    (src dst : String) (enc : Option String) :
    (fsIsFile fs dst = true → fsIsHtml fs dst = false →
      fetch_or_recover fs net src dst enc = ⟨fs, .skippedExisting, 0⟩)
    ∧ (fsIsFile fs dst = true → fsIsHtml fs dst = true →
      fetch_or_recover fs net src dst enc
        = fetch_or_recover (fsRemove fs dst) net src dst enc)
    ∧ (fsIsFile fs dst = false → pyTruthyOpt enc = true →
      fsIsFile fs (enc.getD "") = true →
      fetch_or_recover fs net src dst enc
        = ⟨fsMove fs (enc.getD "") dst, .reusedLeftover, 0⟩)
    ∧ (fsIsFile fs dst = false →
      (pyTruthyOpt enc && fsIsFile fs (enc.getD "")) = false →
      fetch_or_recover fs net src dst enc
        = if is_html_bytes (net src) then
            ⟨fsRemove (fsWrite fs dst (net src)) dst, .failedHtmlAgain, 1⟩
          else ⟨fsWrite fs dst (net src), .downloaded, 1⟩)
    ∧ (fetch_or_recover fs net src dst enc).gets ≤ 1 := by
  refine ⟨?_, ?_, ?_, ?_, ?_⟩
  · intro h1 h2
    simp [fetch_or_recover, h1, h2]
  · intro h1 h2
    simp [fetch_or_recover, h1, h2, fsIsFile_fsRemove_self]
  · intro h1 h2 h3
    simp [fetch_or_recover, h1, h2, h3]
  · intro h1 h2
    simp only [fetch_or_recover, h1, Bool.false_and, Bool.if_false_left,
      Bool.and_false, Bool.false_eq_true, if_false, h2, download,
      fsIsHtml_fsWrite_self]
  · simp only [fetch_or_recover, download]
    split_ifs <;> simp

/-- Witness for C5: on an empty filesystem with no leftover, the fetch
downloads, performing one GET. -/
theorem fetch_or_recover_decision_order_witness :
    fetch_or_recover [] emptyNet "u" "d" none
      = ⟨fsWrite [] "d" (emptyNet "u"), .downloaded, 1⟩ := by
  have h := (fetch_or_recover_decision_order [] emptyNet "u" "d"
    none).2.2.2.1 (by decide) (by decide)
  rw [h]
  decide

/-- A reference whose lowercased extension is not in dot_exts only
updates found_url (the transcoded-rendition skip, lines 163-165). -/
theorem processElt_skip_ext (folder bp : Option String)
    (dexts : List String) (net : Net) (st : LoopState) (t src : String)
    (h : dexts.contains (toLowerStr (splitext_ext src)) = false) :
    processElt folder bp dexts net st ⟨t, some src⟩
      = ⟨st.fs, st.got, some src, st.gets, st.outcomes, st.matched⟩ := by
  simp only [processElt]
  rw [h]
  simp

/-- A reference whose lowercased extension is in dot_exts runs the fetch
stage (binary_path unset), recording the reference in matched and
updating got according to the outcome. -/
theorem processElt_match_ext (folder : Option String)
    (dexts : List String) (net : Net) (st : LoopState) (t src : String)
    (h : dexts.contains (toLowerStr (splitext_ext src)) = true) :
    processElt folder none dexts net st ⟨t, some src⟩
      = (let encoded_dst := if pyTruthyOpt folder then
            some (ospath_join (folder.getD "") (afterLastSlash src))
          else none
        let r := fetch_or_recover st.fs net src
            (ospath_join (folder.getD "") (unquote (afterLastSlash src)))
            encoded_dst
        ⟨r.fs,
          match r.outcome with
          | .reusedLeftover => encoded_dst
          | .downloaded => some src
          | _ => st.got,
          some src, st.gets + r.gets, st.outcomes ++ [r.outcome],
          st.matched ++ [src]⟩) := by
  simp only [processElt]
  rw [h]
  simp

/-- C4: in a document with three references of extensions .mp3, .ogg and
.mid (compared lowercased, hence case-insensitively), target extension
list consisting of mid, the fetch stage runs exactly on the .mid
reference; the two transcoded alternates are skipped, not collected. -/
theorem resolver_selects_only_target (fs : FS) (net : Net)
    (html_path : String) (t1 t2 t3 u1 u2 u3 : String)
    (h1 : toLowerStr (splitext_ext u1) = ".mp3")
    (h2 : toLowerStr (splitext_ext u2) = ".ogg")
    (h3 : toLowerStr (splitext_ext u3) = ".mid") :
    redownloadMatched (redownload fs net html_path
        [⟨t1, some u1⟩, ⟨t2, some u2⟩, ⟨t3, some u3⟩]
        ["mid"] none none none)
      = [u3] := by
  have hdex : (["mid"] : List String).map (fun ext => "." ++ toLowerStr ext)
      = [".mid"] := by decide
  have hc1 : ([".mid"] : List String).contains (toLowerStr (splitext_ext u1))
      = false := by rw [h1]; decide
  have hc2 : ([".mid"] : List String).contains (toLowerStr (splitext_ext u2))
      = false := by rw [h2]; decide
  have hc3 : ([".mid"] : List String).contains (toLowerStr (splitext_ext u3))
      = true := by rw [h3]; decide
  simp only [redownload, hdex, Option.isSome_none, Bool.false_and,
    Bool.false_eq_true, if_false, Option.getD_none, List.foldl_cons,
    List.foldl_nil,
    processElt_skip_ext _ _ _ _ _ _ _ hc1,
    processElt_skip_ext _ _ _ _ _ _ _ hc2,
    processElt_match_ext _ _ _ _ _ _ hc3]
  simp [redownloadMatched]

/-- Witness for C4 at concrete URLs, with the target reference in
uppercase to exercise the case-insensitive comparison. -/
theorem resolver_selects_only_target_witness :
    toLowerStr (splitext_ext "https://a/b.mid/b.mid.mp3") = ".mp3"
    ∧ toLowerStr (splitext_ext "https://a/b.mid/b.mid.ogg") = ".ogg"
    ∧ toLowerStr (splitext_ext "https://a/B.MID") = ".mid"
    ∧ redownloadMatched (redownload [("h", doctypeMagic)] emptyNet "h"
        [⟨"source", some "https://a/b.mid/b.mid.mp3"⟩,
          ⟨"source", some "https://a/b.mid/b.mid.ogg"⟩,
          ⟨"source", some "https://a/B.MID"⟩]
        ["mid"] none none none)
      = ["https://a/B.MID"] :=
  ⟨by decide, by decide, by decide,
    resolver_selects_only_target [("h", doctypeMagic)] emptyNet "h"
      "source" "source" "source" _ _ _
      (by decide) (by decide) (by decide)⟩

/-! ### Archival happens exactly on downloaded or reused outcomes -/

/-- The invariant linking got to the fetch outcomes seen so far: got is
truthy exactly when some fetch ended downloaded or reused-leftover. -/
def GotInv (st : LoopState) : Prop :=
  pyTruthyOpt st.got = true ↔
    (FetchOutcome.downloaded ∈ st.outcomes
      ∨ FetchOutcome.reusedLeftover ∈ st.outcomes)

/-- The reused-leftover outcome only arises when the encoded
destination is truthy. -/
theorem fetch_reused_enc_truthy (fs : FS) (net : Net) (src dst : String)
    (enc : Option String)
    (h : (fetch_or_recover fs net src dst enc).outcome
      = FetchOutcome.reusedLeftover) :
    pyTruthyOpt enc = true := by
  simp only [fetch_or_recover, download] at h
  split_ifs at h <;> simp_all [Bool.and_eq_true]

/-- Like processElt_match_ext, for a set binary_path. -/
theorem processElt_match_bp (folder : Option String) (b : String)
    (dexts : List String) (net : Net) (st : LoopState) (t src : String)
    (h : dexts.contains (toLowerStr (splitext_ext src)) = true) :
    processElt folder (some b) dexts net st ⟨t, some src⟩
      = (if pyTruthyOpt st.got then
          ⟨st.fs, st.got, some src, st.gets, st.outcomes, st.matched⟩
        else
          (let encoded_dst := if pyTruthyOpt folder then
              some (ospath_join (folder.getD "") (afterLastSlash src))
            else none
          let r := fetch_or_recover st.fs net src b encoded_dst
          ⟨r.fs,
            match r.outcome with
            | .reusedLeftover => encoded_dst
            | .downloaded => some src
            | _ => st.got,
            some src, st.gets + r.gets, st.outcomes ++ [r.outcome],
            st.matched ++ [src]⟩)) := by
  simp only [processElt]
  rw [h]
  simp

/-- A fetch step preserves the got/outcome invariant. -/
theorem fetchStep_GotInv (st : LoopState) (net : Net) (src dst : String)
    (enc : Option String) (hsrc : src ≠ "") (hinv : GotInv st) :
    GotInv ⟨(fetch_or_recover st.fs net src dst enc).fs,
      (match (fetch_or_recover st.fs net src dst enc).outcome with
        | FetchOutcome.reusedLeftover => enc
        | FetchOutcome.downloaded => some src
        | _ => st.got),
      some src, st.gets + (fetch_or_recover st.fs net src dst enc).gets,
      st.outcomes ++ [(fetch_or_recover st.fs net src dst enc).outcome],
      st.matched ++ [src]⟩ := by
  unfold GotInv at hinv ⊢
  rcases hr : (fetch_or_recover st.fs net src dst enc).outcome
    with _ | _ | _ | _ <;> simp only [hr, List.mem_append, List.mem_singleton]
  · simp only [reduceCtorEq, or_false]
    exact hinv
  · have := fetch_reused_enc_truthy st.fs net src dst enc hr
    simp [this]
  · simp [pyTruthyOpt, hsrc]
  · simp only [reduceCtorEq, or_false]
    exact hinv

/-- Each loop iteration preserves the got/outcome invariant. -/
theorem processElt_GotInv (folder bp : Option String)
    (dexts : List String) (net : Net) (st : LoopState) (elt : Elt)
    (hdx : "" ∉ dexts) (hinv : GotInv st) :
    GotInv (processElt folder bp dexts net st elt) := by
  obtain ⟨t, s⟩ := elt
  cases s with
  | none =>
    rw [processElt_no_src]
    exact hinv
  | some src =>
    by_cases hc : dexts.contains (toLowerStr (splitext_ext src)) = true
    · have hsrc : src ≠ "" := by
        intro hs
        subst hs
        have hext : toLowerStr (splitext_ext "") = "" := by decide
        rw [hext] at hc
        exact hdx (by simpa using hc)
      cases bp with
      | none =>
        rw [processElt_match_ext _ _ _ _ _ _ hc]
        exact fetchStep_GotInv st net src _ _ hsrc hinv
      | some b =>
        rw [processElt_match_bp _ _ _ _ _ _ _ hc]
        by_cases hg : pyTruthyOpt st.got = true
        · rw [if_pos hg]
          exact hinv
        · rw [if_neg hg]
          exact fetchStep_GotInv st net src _ _ hsrc hinv
    · have hc' : dexts.contains (toLowerStr (splitext_ext src)) = false := by
        simpa using hc
      rw [processElt_skip_ext _ _ _ _ _ _ _ hc']
      exact hinv

/-- The whole loop preserves the got/outcome invariant. -/
theorem foldl_processElt_GotInv (folder bp : Option String)
    (dexts : List String) (net : Net) (doc : List Elt) (st : LoopState)
    (hdx : "" ∉ dexts) (hinv : GotInv st) :
    GotInv (doc.foldl (processElt folder bp dexts net) st) := by
  induction doc generalizing st with
  | nil => exact hinv
  | cons e tl ih =>
    rw [List.foldl_cons]
    exact ih _ (processElt_GotInv folder bp dexts net st e hdx hinv)

/-- C1 counterexample: a candidate whose single matching reference ends
in the skipped-existing outcome (the destination already holds a valid
non-markup file).  The original markup file "Fileːb.mid" is not moved:
movedHtml is false and the filesystem is unchanged — refuting the claim
that the skipped-existing outcome also triggers archival. -/
theorem skippedExisting_not_archived_counterexample :
    redownload [("media/b.mid", [77, 84, 104, 100])] emptyNet "Fileːb.mid"
        [⟨"source", some "http://a/b.mid"⟩] ["mid"] none none none
      = Except.ok ⟨[("media/b.mid", [77, 84, 104, 100])], 0,
          [FetchOutcome.skippedExisting], ["http://a/b.mid"], none,
          some "http://a/b.mid", false, false⟩ := by decide

/-- C1 amended: the original markup file is moved into the archive
folder exactly when some reference's fetch outcome is downloaded or
reused-leftover; the skipped-existing outcome alone does not trigger
archival. -/
theorem redownload_moved_iff_downloaded_or_reused (fs : FS) (net : Net)
    (html_path : String) (doc : List Elt) (extensions : List String)
    (folder0 binary_path html_folder0 : Option String)
    (r : RedownloadResult)
    (h : redownload fs net html_path doc extensions folder0 binary_path
      html_folder0 = Except.ok r) :
    r.movedHtml = true ↔
      (FetchOutcome.downloaded ∈ r.outcomes
        ∨ FetchOutcome.reusedLeftover ∈ r.outcomes) := by
  by_cases hcfg : (binary_path.isSome && folder0.isSome) = true
  · rw [redownload, if_pos hcfg] at h
    cases h
  · rw [redownload, if_neg hcfg] at h
    simp only [Except.ok.injEq] at h
    subst h
    have hdx := empty_not_in_dot_exts extensions
    have h0 : GotInv ⟨fs, none, none, 0, [], []⟩ := by
      unfold GotInv
      simp [pyTruthyOpt]
    have hfin := foldl_processElt_GotInv
      (if binary_path.isSome then folder0 else some (folder0.getD "media"))
      binary_path (List.map (fun ext => "." ++ toLowerStr ext) extensions)
      net doc ⟨fs, none, none, 0, [], []⟩ hdx h0
    unfold GotInv at hfin
    simpa using hfin

/-- Witness for C1 amended: a run whose single fetch downloads its
asset does archive the markup file. -/
theorem redownload_moved_iff_witness :
    ∃ r, redownload [("h", doctypeMagic)] emptyNet "h"
        [⟨"source", some "http://a/c.mid"⟩] ["mid"] none none none
      = Except.ok r
      ∧ (r.movedHtml = true ↔
        (FetchOutcome.downloaded ∈ r.outcomes
          ∨ FetchOutcome.reusedLeftover ∈ r.outcomes)) :=
  ⟨⟨[("html/h", doctypeMagic), ("media/c.mid", [])], 1,
      [FetchOutcome.downloaded], ["http://a/c.mid"],
      some "http://a/c.mid", some "http://a/c.mid", true, false⟩,
    by decide,
    redownload_moved_iff_downloaded_or_reused [("h", doctypeMagic)]
      emptyNet "h" [⟨"source", some "http://a/c.mid"⟩] ["mid"]
      none none none _ (by decide)⟩

end FileReFollow
